import Mathlib

/-!
Shallow embedding of `src/margaret/experiments/eb/go.py`.

The script has three functions plus a helper:
  * `transform_pval(p) = np.sqrt(-np.log(p))`
  * `generate_go_terms(ad, ...)`: per cluster, filter DE genes by
    log-fold-change and adjusted p-value cutoffs, take the top `n_top`
    by score, query the gprofiler service, and (when `save_dir` is set)
    write one CSV per cluster that had a nonempty query.
  * `filter_go_terms(terms_file, pat_file)`: select rows of a GO table
    whose `name` matches any pattern via `name.str.match(pat,
    flags=re.IGNORECASE)`, collect the matching rows' `native` ids into
    a set, and return `go_df.loc[unique_ids]` together with
    `list(unique_ids)`.
  * `generate_go_heatmap(term_paths, pattern_paths, ...)`: run
    `filter_go_terms` per cluster, concatenate the per-cluster save
    frames into `big_df`, write it to Excel under `save_path`, and build
    a cluster-by-term matrix: the DataFrame starts all-NaN, each
    cluster's transformed p-values are written onto its selected
    columns, and `fillna(0)` then replaces every NaN cell by `0` —
    the unassigned cells, but also assigned cells whose transform is
    NaN (raw p-value below 0 or above 1).  An assigned `inf` (raw
    p-value exactly 0) is not NaN and survives `fillna`.

Modelling conventions:
  * pandas / numpy floats are modelled by ℚ where only comparisons and
    tabular plumbing happen, and by ℝ for `transform_pval`: as
    `Option ℝ` (none marking any non-finite result, NaN or ±inf) where
    only finiteness matters, and as `NpVal` (finite / +inf / -inf /
    NaN) where `fillna` must distinguish NaN from ±inf.  A matrix cell
    after `fillna(0)` is `Option ℝ` again, none marking the one
    non-finite value that can remain, +inf.
  * A DE result's parallel arrays `names` / `scores` /
    `logfoldchanges` / `pvals_adj` (all indexed by gene name) are
    zipped into one record per gene.
  * Python `set` iteration order is unspecified; we enumerate a set as
    a `dedup`-ed list in first-occurrence order.  Every claim below is
    order-insensitive, so this choice is immaterial.
  * `np.unique` sorts its output; we use `List.dedup`, which returns
    the same elements.  Claims use only membership in this list.
  * `re.match(pat, s, flags=re.IGNORECASE)` is an external library
    primitive; the embedding abstracts it as a matcher argument
    `m : String → String → Bool` (pattern, then subject).
    `reMatchLiteralCI` instantiates it for patterns that are literal
    text without regex metacharacters: `re.match` anchors at the start
    of the string, so a literal pattern matches exactly the strings
    having it as a case-insensitive prefix.
-/

/-- One gene of a differential-expression result: the entries of the four
parallel arrays `names`, `scores`, `logfoldchanges`, `pvals_adj` at one
index, zipped together. -/
structure DEGene where
  name : String
  score : ℚ
  logfoldchange : ℚ
  pval_adj : ℚ
  deriving DecidableEq, Repr

/-- The DE result stored at `ad.uns[de_key]`: for each cluster id (the
string `f"{idx}"`), its gene table. -/
structure DEResult where
  entries : String → List DEGene

/-- The slice of an AnnData object that `generate_go_terms` reads:
`ad.uns` (keyed by `de_key`) and the cluster labels column
`ad.obs[clusters_key]`. -/
structure AnnData where
  uns : String → DEResult
  obs : String → List String

/-- One row of a gprofiler GO-results table (the columns the script
touches). -/
structure GoRow where
  source : String
  native : String
  name : String
  p_value : ℚ
  significant : Bool
  deriving DecidableEq, Repr

/-- `valid_lfc_inds.multiply(valid_pval_inds)` at one gene:
`lfc_vals >= lfc_cutoff` AND `adjp_vals <= pval_cutoff`. -/
def passesFilter (lfc_cutoff pval_cutoff : ℚ) (g : DEGene) : Bool :=
  lfc_cutoff ≤ g.logfoldchange && g.pval_adj ≤ pval_cutoff

/-- `remaining_genes = gene_index[mask]`: the genes passing both
thresholds, in table order. -/
def remaining_genes (lfc_cutoff pval_cutoff : ℚ) (genes : List DEGene) : List DEGene :=
  genes.filter (passesFilter lfc_cutoff pval_cutoff)

/-- Descending-score order used by
`filtered_scores.sort_values(ascending=False)`. -/
def scoreGE (a b : DEGene) : Prop := b.score ≤ a.score

instance : DecidableRel scoreGE := fun a b => inferInstanceAs (Decidable (b.score ≤ a.score))

instance : IsTotal DEGene scoreGE := ⟨fun a b => le_total b.score a.score⟩

instance : IsTrans DEGene scoreGE := ⟨fun _ _ _ h1 h2 => le_trans h2 h1⟩

/-- The per-cluster query pool: threshold filtering, then
`sort_values(ascending=False).iloc[:n_top]`.  (pandas' quicksort and
insertion sort may order equal scores differently; no claim depends on
the order among ties.) -/
def clusterQuery (lfc_cutoff pval_cutoff : ℚ) (n_top : ℕ) (genes : List DEGene) : List DEGene :=
  ((remaining_genes lfc_cutoff pval_cutoff genes).insertionSort scoreGE).take n_top

/-- The gene-name list `list(remaining_genes)` submitted to gprofiler
for one cluster. -/
def queryGenes (ad : AnnData) (de_key : String) (lfc_cutoff pval_cutoff : ℚ) (n_top : ℕ)
    (idx : String) : List String :=
  (clusterQuery lfc_cutoff pval_cutoff n_top ((ad.uns de_key).entries idx)).map (fun g => g.name)

/-- Observable effects of `generate_go_terms`: the queries submitted to
gprofiler and the CSV files written (file name, table). -/
structure GoTermsResult where
  queries : List (String × List String)
  files : List (String × List GoRow)
  deriving DecidableEq

/-- `generate_go_terms`.  `gprof` abstracts the external
`gprofiler(organism="hsapiens", query=...)` call.  The loop body: skip a
cluster whose filtered top list is empty, otherwise query, and write
`GO_<idx>.csv` when `save_dir` is set.  The function only reads `ad`,
which is returned unchanged as the second component. -/
def generate_go_terms (gprof : List String → List GoRow) (ad : AnnData)
    (de_key clusters_key : String) (lfc_cutoff pval_cutoff : ℚ) (n_top : ℕ)
    (go_clusters : Option (List String)) (save_dir : Option String) :
    GoTermsResult × AnnData :=
  let cluster_ids := (ad.obs clusters_key).dedup
  let query_cluster_ids := go_clusters.getD cluster_ids
  let steps := query_cluster_ids.filterMap fun idx =>
    let genes := queryGenes ad de_key lfc_cutoff pval_cutoff n_top idx
    if genes.isEmpty then none else some (idx, genes, gprof genes)
  ⟨⟨steps.map (fun s => (s.1, s.2.1)),
    match save_dir with
    | none => []
    | some _ => steps.map (fun s => ("GO_" ++ s.1 ++ ".csv", s.2.2))⟩,
   ad⟩

/-- `re.match(pat, s, re.IGNORECASE)` for a pattern that is literal text
without regex metacharacters: `re.match` anchors at the beginning, so
such a pattern matches exactly the strings of which it is a
case-insensitive prefix.  Computed on the character lists so that it
evaluates by kernel reduction. -/
def reMatchLiteralCI (pat s : String) : Bool :=
  (pat.data.map Char.toLower).isPrefixOf (s.data.map Char.toLower)

/-- Does `name` match any pattern of the pattern file?  `m` is the
`re.match(·, ·, flags=re.IGNORECASE)` primitive, pattern first. -/
def matchesAny (m : String → String → Bool) (patterns : List String) (name : String) : Bool :=
  patterns.any fun pat => m pat name

/-- `filter_go_terms`, after the two file reads: `patterns` is the
stripped pattern list, `go_df` the parsed GO table with index column
`native`.  The pattern loop unions `index[name.str.match(pat, IGNORECASE)]`
over patterns into the set `unique_ids`; we enumerate that set as the
`dedup`-ed `native` list of the matching rows (Python set order is
unspecified; all claims are order-insensitive).  `go_df.loc[unique_ids]`
selects, for each id of the list, every row whose `native` equals it. -/
def filter_go_terms (m : String → String → Bool) (patterns : List String)
    (go_df : List GoRow) : List GoRow × List String :=
  let unique_ids :=
    ((go_df.filter fun r => matchesAny m patterns r.name).map (fun r => r.native)).dedup
  ((unique_ids.map fun i => go_df.filter fun r => r.native == i).flatten, unique_ids)

/-- One row of the aggregated spreadsheet `big_df`: a filtered row's
`save_columns` prefixed with its cluster label (`"lineage/cluster"`). -/
structure SaveRow where
  cluster : String
  source : String
  native : String
  name : String
  p_value : ℚ
  significant : Bool
  deriving DecidableEq, Repr

/-- The `big_df` accumulated by `generate_go_heatmap`: for each cluster
of `term_paths` (an association list `cluster label ↦ parsed GO table`,
in dict insertion order) the rows selected by `filter_go_terms` with the
patterns of `pattern_paths`, concatenated. -/
def bigDf (m : String → String → Bool) (term_paths : List (String × List GoRow))
    (pattern_paths : String → List String) : List SaveRow :=
  term_paths.flatMap fun c =>
    ((filter_go_terms m (pattern_paths c.1) c.2).1).map fun r =>
      ⟨c.1, r.source, r.native, r.name, r.p_value, r.significant⟩

/-- `np.log` on reals, with `none` for the non-finite results:
`np.log(0) = -inf` and `np.log` of a negative number is NaN. -/
noncomputable def npLog (p : ℝ) : Option ℝ :=
  if 0 < p then some (Real.log p) else none

/-- `np.sqrt` on reals, with `none` for the NaN a negative argument
produces. -/
noncomputable def npSqrt (x : ℝ) : Option ℝ :=
  if 0 ≤ x then some (Real.sqrt x) else none

/-- `transform_pval(p) = np.sqrt(-np.log(p))`; `none` marks a non-finite
float result (NaN or `inf`). -/
noncomputable def transform_pval (p : ℝ) : Option ℝ :=
  (npLog p).bind fun l => npSqrt (-l)

/-- A numpy float value at the real-number idealization, keeping the
non-finite values apart — `fillna` treats NaN and ±inf differently. -/
inductive NpVal where
  | finite (x : ℝ)
  | posInf
  | negInf
  | nan

/-- `np.log` into `NpVal`: `np.log(0) = -inf`, `np.log` of a negative
number is NaN. -/
noncomputable def npLogV (p : ℝ) : NpVal :=
  if 0 < p then .finite (Real.log p) else if p = 0 then .negInf else .nan

/-- Negation on `NpVal`. -/
def npNegV : NpVal → NpVal
  | .finite x => .finite (-x)
  | .posInf => .negInf
  | .negInf => .posInf
  | .nan => .nan

/-- `np.sqrt` on `NpVal`: NaN on a negative argument (and on `-inf`),
`inf` on `inf`. -/
noncomputable def npSqrtV : NpVal → NpVal
  | .finite x => if 0 ≤ x then .finite (Real.sqrt x) else .nan
  | .posInf => .posInf
  | .negInf => .nan
  | .nan => .nan

/-- `transform_pval` tracked as an `NpVal`: `np.sqrt(-np.log(p))` with
NaN and ±inf kept apart. -/
noncomputable def transformPvalNp (p : ℝ) : NpVal :=
  npSqrtV (npNegV (npLogV p))

/-- `fillna(0)` at one cell: NaN becomes `0`, every other value —
finite or infinite — is kept. -/
def fillna0 : NpVal → NpVal
  | .nan => .finite 0
  | v => v

/-- A matrix cell after `fillna(0)`, collapsed back to `Option ℝ`:
`none` marks the one non-finite value that can remain, `inf`. -/
def npToCell : NpVal → Option ℝ
  | .finite x => some x
  | _ => none

/-- Entry `(lbl, tid)` of the cluster-by-term matrix `go_df` built by
`generate_go_heatmap`: the DataFrame starts all-NaN, row `lbl` gets
`pval_dict[lbl]` (the transformed p-values of the filtered table,
indexed by `native`) on the columns `id_dict[lbl]`, and `fillna(0)`
then replaces every NaN cell by `0` — unassigned cells, and also
assigned cells whose transform is NaN.  The series assignment aligns by
`native`; the `find?` lookup returns the first row with the given id
(the only one when the table's ids are distinct, which the alignment
needs to be well defined). -/
noncomputable def heatmapEntry (m : String → String → Bool)
    (term_paths : List (String × List GoRow)) (pattern_paths : String → List String)
    (lbl tid : String) : Option ℝ :=
  match term_paths.lookup lbl with
  | none => some 0
  | some rows =>
    let res := filter_go_terms m (pattern_paths lbl) rows
    npToCell (fillna0
      (if tid ∈ res.2 then
        match res.1.find? (fun r => r.native == tid) with
        | some r => transformPvalNp (r.p_value : ℝ)
        | none => NpVal.nan
      else NpVal.nan))

/-- Row labels of the heatmap matrix: `cluster_labels = list(term_paths.keys())`. -/
def heatmapRowLabels (term_paths : List (String × List GoRow)) : List String :=
  term_paths.map (fun c => c.1)

/-- Column labels of the heatmap matrix: the union `unique_ids` of all
clusters' filtered id lists (as a set; enumerated in first-occurrence
order). -/
def heatmapColLabels (m : String → String → Bool)
    (term_paths : List (String × List GoRow)) (pattern_paths : String → List String) :
    List String :=
  (term_paths.flatMap fun c => (filter_go_terms m (pattern_paths c.1) c.2).2).dedup

/-- Observable outputs of a successful `generate_go_heatmap` run: the
Excel file (path and rows) when `save_filtered_df` is set, the matrix
labels, and the PNG path when `save_path` is set. -/
structure HeatmapOutput where
  excelFile : Option (String × List SaveRow)
  matrixRows : List String
  matrixCols : List String
  pngFile : Option String

/-- `generate_go_heatmap` control flow around its outputs (`order`,
`groups`, `color_map` only relabel the rendered axes and are omitted).
`big_df` is built first; when `save_filtered_df` is true the script then
evaluates `os.path.join(save_path, f"GO_{len(term_paths)}.xlsx")`, which
raises `TypeError` when `save_path` is `None` — before any matrix or
heatmap is produced. -/
noncomputable def generate_go_heatmap (m : String → String → Bool)
    (term_paths : List (String × List GoRow)) (pattern_paths : String → List String)
    (save_filtered_df : Bool) (save_path : Option String) :
    Except String HeatmapOutput :=
  let bd := bigDf m term_paths pattern_paths
  match save_filtered_df, save_path with
  | true, none =>
      Except.error "TypeError: join() argument must be str, bytes, or os.PathLike object, not NoneType"
  | true, some dir =>
      Except.ok
        ⟨some (dir ++ "/GO_" ++ toString term_paths.length ++ ".xlsx", bd),
         heatmapRowLabels term_paths, heatmapColLabels m term_paths pattern_paths,
         some (dir ++ "/GO_" ++ toString term_paths.length ++ ".png")⟩
  | false, sp =>
      Except.ok
        ⟨none, heatmapRowLabels term_paths, heatmapColLabels m term_paths pattern_paths,
         sp.map fun dir => dir ++ "/GO_" ++ toString term_paths.length ++ ".png"⟩

/-!
Concrete inputs used by the witness and counterexample theorems below.
All rational values are integers because the claims only compare them;
nothing depends on that choice.
-/

/-- A gene passing both thresholds with the top score. -/
def gAEx : DEGene := ⟨"gA", 5, 2, 0⟩

/-- A gene passing both thresholds with a lower score. -/
def gBEx : DEGene := ⟨"gB", 3, 2, 0⟩

/-- A gene failing the log-fold-change threshold (with the best score,
so score alone would have kept it). -/
def gCEx : DEGene := ⟨"gC", 9, 0, 0⟩

/-- A small DE table. -/
def genesEx : List DEGene := [gAEx, gBEx, gCEx]

/-- A gprofiler stub (the service's reply is irrelevant to the claims
about which clusters get queried and written). -/
def gprofEx : List String → List GoRow := fun _ => []

/-- An AnnData whose single cluster `"0"` has only genes failing the
log-fold-change cutoff `1`. -/
def adEx : AnnData := ⟨fun _ => ⟨fun _ => [⟨"g1", 5, 0, 0⟩]⟩, fun _ => ["0"]⟩

/-- GO row whose name matches the pattern `"apple"`. -/
def appleRowA : GoRow := ⟨"GO:BP", "GO:0001", "apple growth", 1, true⟩

/-- GO row sharing `appleRowA`'s native id but matching no pattern. -/
def zebraRowA : GoRow := ⟨"GO:BP", "GO:0001", "zebra stripes", 1, false⟩

/-- A GO table repeating the native id `GO:0001`, only the first row
matching the pattern. -/
def goDfDup : List GoRow := [appleRowA, zebraRowA]

/-- GO row with native id `GO:0002`, matching `"apple"`. -/
def applePieRow : GoRow := ⟨"GO:BP", "GO:0002", "apple pie", 1, true⟩

/-- A second GO row with the same native id `GO:0002`, also matching. -/
def appleTartRow : GoRow := ⟨"GO:BP", "GO:0002", "apple tart", 1, true⟩

/-- A GO table repeating the native id `GO:0002`, both rows matching. -/
def goDfDup2 : List GoRow := [applePieRow, appleTartRow]

/-- GO row (distinct native ids table): the matching row.  Its p-value
is `1` so that `transform_pval` is defined at it. -/
def appleRowW : GoRow := ⟨"GO:BP", "GO:0001", "apple growth", 1, true⟩

/-- GO row (distinct native ids table): the non-matching row. -/
def zebraRowW : GoRow := ⟨"GO:BP", "GO:0002", "zebra stripes", 1, false⟩

/-- A well-formed GO table: distinct native ids. -/
def goDfW : List GoRow := [appleRowW, zebraRowW]

/-- A one-cluster `term_paths` association. -/
def termPathsEx : List (String × List GoRow) := [("c1", goDfW)]

/-- The matching `pattern_paths`: every cluster uses the pattern
`"apple"`. -/
def patternPathsEx : String → List String := fun _ => ["apple"]

/-- The spreadsheet row produced for cluster `"c1"` and `appleRowW`. -/
def saveRowEx : SaveRow := ⟨"c1", "GO:BP", "GO:0001", "apple growth", 1, true⟩

/-- A matching GO row whose raw p-value `2` lies outside `[0, 1]`, so
its transform is NaN. -/
def pv2Row : GoRow := ⟨"GO:BP", "GO:0001", "apple growth", 2, true⟩

/-- A one-cluster `term_paths` whose selected term has the
out-of-range p-value `2`. -/
def termPathsBad : List (String × List GoRow) := [("c1", [pv2Row])]

/-!  Helper lemmas, shared by several claim theorems.  -/

/-- In a list sorted by descending score, every element kept by
`take n` has a score at least that of every element of `drop n`. -/
theorem score_le_of_take_drop {l : List DEGene} (h : l.Sorted scoreGE) {n : ℕ}
    {a b : DEGene} (ha : a ∈ l.take n) (hb : b ∈ l.drop n) : b.score ≤ a.score := by
  have h2 : List.Pairwise scoreGE (l.take n ++ l.drop n) := by
    rw [List.take_append_drop]; exact h
  exact (List.pairwise_append.mp h2).2.2 a ha b hb

/-- Every gene of the per-cluster query pool comes from the input table
and passes both thresholds. -/
theorem mem_of_mem_clusterQuery {lfc_cutoff pval_cutoff : ℚ} {n_top : ℕ}
    {genes : List DEGene} {g : DEGene} (hg : g ∈ clusterQuery lfc_cutoff pval_cutoff n_top genes) :
    g ∈ genes ∧ passesFilter lfc_cutoff pval_cutoff g = true := by
  have h1 : g ∈ (remaining_genes lfc_cutoff pval_cutoff genes).insertionSort scoreGE :=
    List.take_subset _ _ hg
  have h2 : g ∈ remaining_genes lfc_cutoff pval_cutoff genes :=
    (List.perm_insertionSort scoreGE _).subset h1
  exact List.mem_filter.mp h2

/-- The id list returned by `filter_go_terms` holds exactly the native
ids of the rows whose name matches some pattern. -/
theorem mem_filter_go_terms_ids (m : String → String → Bool) (patterns : List String)
    (go_df : List GoRow) (i : String) :
    i ∈ (filter_go_terms m patterns go_df).2 ↔
      ∃ r ∈ go_df, r.native = i ∧ matchesAny m patterns r.name = true := by
  simp only [filter_go_terms, List.mem_dedup, List.mem_map, List.mem_filter]
  constructor
  · rintro ⟨r, ⟨hr, hm⟩, rfl⟩
    exact ⟨r, hr, rfl, hm⟩
  · rintro ⟨r, hr, rfl, hm⟩
    exact ⟨r, ⟨hr, hm⟩, rfl⟩

/-- When the table's native ids are distinct, the rows returned by
`filter_go_terms` are exactly the rows whose name matches some
pattern. -/
theorem mem_filter_go_terms_rows {m : String → String → Bool} {patterns : List String}
    {go_df : List GoRow} (hnd : (go_df.map fun r => r.native).Nodup) (r : GoRow) :
    r ∈ (filter_go_terms m patterns go_df).1 ↔
      r ∈ go_df ∧ matchesAny m patterns r.name = true := by
  constructor
  · intro hmem
    obtain ⟨l, hl, hrl⟩ := List.mem_flatten.mp hmem
    obtain ⟨i, hi, rfl⟩ := List.mem_map.mp hl
    obtain ⟨hr, hnat⟩ := List.mem_filter.mp hrl
    obtain ⟨r2, hr2, hr2i, hr2m⟩ := (mem_filter_go_terms_ids m patterns go_df i).mp hi
    have hrr2 : r = r2 := by
      apply List.inj_on_of_nodup_map hnd hr hr2
      rw [hr2i]
      exact (beq_iff_eq.mp hnat)
    exact ⟨hr, hrr2 ▸ hr2m⟩
  · rintro ⟨hr, hm⟩
    apply List.mem_flatten.mpr
    refine ⟨go_df.filter fun s => s.native == r.native, ?_, ?_⟩
    · apply List.mem_map.mpr
      refine ⟨r.native, ?_, rfl⟩
      exact (mem_filter_go_terms_ids m patterns go_df r.native).mpr ⟨r, hr, rfl, hm⟩
    · exact List.mem_filter.mpr ⟨hr, beq_self_eq_true _⟩

/-!  Claim theorems.  -/

/-- C1.  In `generate_go_terms`, a gene passes the pre-query filter
(`remaining_genes`) iff its log-fold-change is at least `lfc_cutoff`
and its adjusted p-value is at most `pval_cutoff`; a gene failing
either threshold is excluded from the GO query pool. -/
theorem claim_C1 (lfc_cutoff pval_cutoff : ℚ) (n_top : ℕ) (genes : List DEGene)
    (g : DEGene) (hg : g ∈ genes) :
    (g ∈ remaining_genes lfc_cutoff pval_cutoff genes ↔
        lfc_cutoff ≤ g.logfoldchange ∧ g.pval_adj ≤ pval_cutoff)
    ∧ (¬(lfc_cutoff ≤ g.logfoldchange ∧ g.pval_adj ≤ pval_cutoff) →
        g ∉ clusterQuery lfc_cutoff pval_cutoff n_top genes) := by
  constructor
  · rw [remaining_genes, List.mem_filter, passesFilter]
    simp [hg]
  · intro hfail hq
    obtain ⟨-, hpass⟩ := mem_of_mem_clusterQuery hq
    rw [passesFilter] at hpass
    simp only [Bool.and_eq_true, decide_eq_true_eq] at hpass
    exact hfail hpass

/-- C1 witness: the gene `gCEx` of `genesEx` fails the log-fold-change
threshold, is not in `remaining_genes`, and is excluded from the
query. -/
theorem claim_C1_witness :
    gCEx ∈ genesEx ∧
      ((gCEx ∈ remaining_genes 1 0 genesEx ↔
          1 ≤ gCEx.logfoldchange ∧ gCEx.pval_adj ≤ 0)
       ∧ (¬(1 ≤ gCEx.logfoldchange ∧ gCEx.pval_adj ≤ 0) →
          gCEx ∉ clusterQuery 1 0 1 genesEx)) :=
  ⟨by decide, claim_C1 1 0 1 genesEx gCEx (by decide)⟩

/-- A `filterMap` whose function skips on `p` and maps with `f`
otherwise is a `filter` followed by a `map`. -/
theorem filterMap_skip_eq_map_filter {α β : Type _} (f : α → β) (p : α → Bool) (L : List α) :
    (L.filterMap fun a => if p a then none else some (f a))
      = (L.filter fun a => !p a).map f := by
  induction L with
  | nil => rfl
  | cons x xs ih =>
    by_cases h : p x
    · simp [List.filterMap_cons, List.filter_cons, h, ih]
    · simp [List.filterMap_cons, List.filter_cons, h, ih]

/-- The queries submitted by `generate_go_terms`: one per queried
cluster whose filtered top gene list is nonempty. -/
theorem generate_go_terms_queries (gprof : List String → List GoRow) (ad : AnnData)
    (de_key clusters_key : String) (lfc_cutoff pval_cutoff : ℚ) (n_top : ℕ)
    (go_clusters : Option (List String)) (save_dir : Option String) :
    (generate_go_terms gprof ad de_key clusters_key lfc_cutoff pval_cutoff n_top
        go_clusters save_dir).1.queries
      = ((go_clusters.getD ((ad.obs clusters_key).dedup)).filter
          fun idx => !(queryGenes ad de_key lfc_cutoff pval_cutoff n_top idx).isEmpty).map
          fun idx => (idx, queryGenes ad de_key lfc_cutoff pval_cutoff n_top idx) := by
  show ((go_clusters.getD ((ad.obs clusters_key).dedup)).filterMap fun idx =>
      if (queryGenes ad de_key lfc_cutoff pval_cutoff n_top idx).isEmpty then none
      else some (idx, queryGenes ad de_key lfc_cutoff pval_cutoff n_top idx,
        gprof (queryGenes ad de_key lfc_cutoff pval_cutoff n_top idx))).map
      (fun s => (s.1, s.2.1)) = _
  rw [filterMap_skip_eq_map_filter, List.map_map]
  rfl

/-- C2.  The query submitted per cluster is the top-`n_top`
threshold-passing genes by score: it has at most `n_top` genes, each
drawn from the table and threshold-passing, and each submitted gene's
score dominates the score of every threshold-passing gene left out;
accordingly every query submitted by `generate_go_terms` has at most
`n_top` genes. -/
theorem claim_C2 (lfc_cutoff pval_cutoff : ℚ) (n_top : ℕ) (genes : List DEGene) :
    (clusterQuery lfc_cutoff pval_cutoff n_top genes).length ≤ n_top
    ∧ (∀ g ∈ clusterQuery lfc_cutoff pval_cutoff n_top genes,
        g ∈ genes ∧ passesFilter lfc_cutoff pval_cutoff g = true)
    ∧ (∀ g ∈ clusterQuery lfc_cutoff pval_cutoff n_top genes,
        ∀ g2 ∈ genes, passesFilter lfc_cutoff pval_cutoff g2 = true →
          g2 ∉ clusterQuery lfc_cutoff pval_cutoff n_top genes → g2.score ≤ g.score)
    ∧ (∀ (gprof : List String → List GoRow) (ad : AnnData) (de_key clusters_key : String)
        (go_clusters : Option (List String)) (save_dir : Option String),
        ∀ q ∈ (generate_go_terms gprof ad de_key clusters_key lfc_cutoff pval_cutoff n_top
            go_clusters save_dir).1.queries,
          q.2.length ≤ n_top) := by
  refine ⟨?_, ?_, ?_, ?_⟩
  · rw [clusterQuery, List.length_take]
    exact min_le_left _ _
  · exact fun g hg => mem_of_mem_clusterQuery hg
  · intro g hg g2 hg2 hpass hnot
    have hsort : ((remaining_genes lfc_cutoff pval_cutoff genes).insertionSort
        scoreGE).Sorted scoreGE := List.sorted_insertionSort scoreGE _
    have hg2l : g2 ∈ (remaining_genes lfc_cutoff pval_cutoff genes).insertionSort scoreGE :=
      (List.perm_insertionSort scoreGE _).symm.subset (List.mem_filter.mpr ⟨hg2, hpass⟩)
    have hg2d : g2 ∈ ((remaining_genes lfc_cutoff pval_cutoff genes).insertionSort
        scoreGE).drop n_top := by
      rcases List.mem_append.mp
          (show g2 ∈ ((remaining_genes lfc_cutoff pval_cutoff genes).insertionSort
              scoreGE).take n_top ++ ((remaining_genes lfc_cutoff pval_cutoff
              genes).insertionSort scoreGE).drop n_top by
            rw [List.take_append_drop]; exact hg2l) with h | h
      · exact absurd h hnot
      · exact h
    exact score_le_of_take_drop hsort hg hg2d
  · intro gprof ad de_key clusters_key go_clusters save_dir q hq
    rw [generate_go_terms_queries] at hq
    obtain ⟨idx, -, rfl⟩ := List.mem_map.mp hq
    simp only [queryGenes, List.length_map, clusterQuery, List.length_take]
    exact min_le_left _ _

/-- C2 witness: with `n_top = 1` the query from `genesEx` is `[gAEx]`;
the threshold-passing gene `gBEx` was left out and indeed has a lower
score. -/
theorem claim_C2_witness :
    gAEx ∈ clusterQuery 1 0 1 genesEx ∧ gBEx ∈ genesEx
    ∧ passesFilter 1 0 gBEx = true ∧ gBEx ∉ clusterQuery 1 0 1 genesEx
    ∧ gBEx.score ≤ gAEx.score :=
  ⟨by decide, by decide, by decide, by decide,
   (claim_C2 1 0 1 genesEx).2.2.1 gAEx (by decide) gBEx (by decide) (by decide) (by decide)⟩

/-- C3 (amended).  When `save_dir` is set, `generate_go_terms` writes
exactly one file `GO_<idx>.csv` for each queried cluster whose filtered
top gene list is nonempty — clusters whose list is empty are skipped
and get no file. -/
theorem claim_C3 (gprof : List String → List GoRow) (ad : AnnData)
    (de_key clusters_key : String) (lfc_cutoff pval_cutoff : ℚ) (n_top : ℕ)
    (go_clusters : Option (List String)) (d : String) :
    (generate_go_terms gprof ad de_key clusters_key lfc_cutoff pval_cutoff n_top
        go_clusters (some d)).1.files
      = ((go_clusters.getD ((ad.obs clusters_key).dedup)).filter
          fun idx => !(queryGenes ad de_key lfc_cutoff pval_cutoff n_top idx).isEmpty).map
          fun idx => ("GO_" ++ idx ++ ".csv",
            gprof (queryGenes ad de_key lfc_cutoff pval_cutoff n_top idx)) := by
  show ((go_clusters.getD ((ad.obs clusters_key).dedup)).filterMap fun idx =>
      if (queryGenes ad de_key lfc_cutoff pval_cutoff n_top idx).isEmpty then none
      else some (idx, queryGenes ad de_key lfc_cutoff pval_cutoff n_top idx,
        gprof (queryGenes ad de_key lfc_cutoff pval_cutoff n_top idx))).map
      (fun s => ("GO_" ++ s.1 ++ ".csv", s.2.2)) = _
  rw [filterMap_skip_eq_map_filter, List.map_map]
  rfl

/-- C3 counterexample: cluster `"0"` is in the query set of `adEx`, yet
no gene passes the thresholds, so with `save_dir` set no file at all is
written — refuting "a results file is written for every cluster id in
the query set". -/
theorem claim_C3_counterexample :
    "0" ∈ (adEx.obs "metric_clusters").dedup
    ∧ (generate_go_terms gprofEx adEx "rank_genes_groups" "metric_clusters" 1 0 500
        none (some "go_dir")).1.files = [] := by decide

/-- C8.  `generate_go_terms` only reads its AnnData argument: the
returned final state equals the input. -/
theorem claim_C8 (gprof : List String → List GoRow) (ad : AnnData)
    (de_key clusters_key : String) (lfc_cutoff pval_cutoff : ℚ) (n_top : ℕ)
    (go_clusters : Option (List String)) (save_dir : Option String) :
    (generate_go_terms gprof ad de_key clusters_key lfc_cutoff pval_cutoff n_top
        go_clusters save_dir).2 = ad :=
  rfl

/-- C4 (amended).  `filter_go_terms` computes the set of native ids of
the rows whose name matches some pattern, and returns the rows of the
table carrying those ids.  When the table's native ids are distinct
this selects exactly the matching rows; when an id repeats, every row
carrying a selected id is returned, matching or not. -/
theorem claim_C4 (m : String → String → Bool) (patterns : List String) (go_df : List GoRow) :
    (∀ i, i ∈ (filter_go_terms m patterns go_df).2 ↔
        ∃ r ∈ go_df, r.native = i ∧ matchesAny m patterns r.name = true)
    ∧ ((go_df.map fun r => r.native).Nodup →
        ∀ r, r ∈ (filter_go_terms m patterns go_df).1 ↔
          r ∈ go_df ∧ matchesAny m patterns r.name = true) :=
  ⟨fun i => mem_filter_go_terms_ids m patterns go_df i,
   fun hnd r => mem_filter_go_terms_rows hnd r⟩

/-- C4 counterexample: in `goDfDup` the row `zebraRowA` matches no
pattern, yet it appears in the returned table because it shares its
native id with the matching row `appleRowA` — refuting "a row whose
name matches no pattern never appears in the returned table". -/
theorem claim_C4_counterexample :
    zebraRowA ∈ (filter_go_terms reMatchLiteralCI ["apple"] goDfDup).1
    ∧ matchesAny reMatchLiteralCI ["apple"] zebraRowA.name = false := by decide

/-- C4 witness: on the duplicate-free table `goDfW` the returned table
membership of `zebraRowW` is equivalent to its matching some
pattern. -/
theorem claim_C4_witness :
    zebraRowW ∈ (filter_go_terms reMatchLiteralCI ["apple"] goDfW).1 ↔
      zebraRowW ∈ goDfW ∧ matchesAny reMatchLiteralCI ["apple"] zebraRowW.name = true :=
  (claim_C4 reMatchLiteralCI ["apple"] goDfW).2 (by decide) zebraRowW

/-- Row multiplicity of one native id in a flattening of per-id filters
over a duplicate-free id list. -/
theorem native_count_flatten (go_df : List GoRow) (i : String) :
    ∀ L : List String, L.Nodup →
      ((L.map fun j => go_df.filter fun r => r.native == j).flatten.filter
          fun r => r.native == i).length
        = if i ∈ L then (go_df.filter fun r => r.native == i).length else 0 := by
  intro L
  induction L with
  | nil => intro _; simp
  | cons j L ih =>
    intro hnd
    rw [List.map_cons, List.flatten_cons, List.filter_append, List.length_append,
      ih (List.nodup_cons.mp hnd).2]
    by_cases hij : i = j
    · subst hij
      have hiL : i ∉ L := (List.nodup_cons.mp hnd).1
      rw [List.filter_filter, if_neg hiL, if_pos (List.mem_cons_self i L)]
      simp only [Bool.and_self, Nat.add_zero]
    · have h0 : ((go_df.filter fun r => r.native == j).filter fun r => r.native == i) = [] := by
        rw [List.filter_eq_nil_iff]
        intro a ha
        have haj : a.native = j := beq_iff_eq.mp (List.mem_filter.mp ha).2
        simp only [haj, beq_iff_eq]
        exact fun h => hij h.symm
      rw [h0]
      have hmem : (i ∈ j :: L) ↔ i ∈ L := by
        simp [List.mem_cons, hij]
      rw [if_congr hmem rfl rfl]
      simp

/-- C5 (amended).  The id list returned by `filter_go_terms` never
repeats an id; in the returned table, a selected native id occurs
exactly as many times as it occurs in the input table (so at most once
only when the input does not repeat it), and an unselected id does not
occur. -/
theorem claim_C5 (m : String → String → Bool) (patterns : List String) (go_df : List GoRow) :
    ((filter_go_terms m patterns go_df).2).Nodup
    ∧ ∀ i, ((filter_go_terms m patterns go_df).1.filter fun r => r.native == i).length
        = if i ∈ (filter_go_terms m patterns go_df).2
          then (go_df.filter fun r => r.native == i).length else 0 :=
  ⟨List.nodup_dedup _,
   fun i => native_count_flatten go_df i ((filter_go_terms m patterns go_df).2)
     (List.nodup_dedup _)⟩

/-- C5 counterexample: `goDfDup2` repeats the native id `GO:0002`, and
the returned filtered table contains two rows with that id — refuting
"each native term identifier occurs ... at most once as a row of the
returned filtered table, even when ... the input file repeats an
identifier". -/
theorem claim_C5_counterexample :
    ((filter_go_terms reMatchLiteralCI ["apple"] goDfDup2).1.filter
        fun r => r.native == "GO:0002").length = 2 := by decide

/-- A successful association-list lookup exhibits a member pair. -/
theorem pair_mem_of_lookup_eq_some {l : List (String × List GoRow)} {a : String}
    {b : List GoRow} (h : l.lookup a = some b) : (a, b) ∈ l := by
  induction l with
  | nil => simp [List.lookup] at h
  | cons c l ih =>
    rcases c with ⟨k, v⟩
    simp only [List.lookup] at h
    split at h
    · next heq =>
        rw [beq_iff_eq.mp heq, Option.some_inj.mp h]
        exact List.mem_cons_self _ _
    · next => exact List.mem_cons_of_mem _ (ih h)

/-- When a term is selected for a cluster, the heatmap cell holds the
transformed p-value of that cluster's row carrying the term's id,
passed through the final `fillna(0)`. -/
theorem heatmapEntry_eq_cell (m : String → String → Bool)
    (term_paths : List (String × List GoRow)) (pattern_paths : String → List String)
    {lbl tid : String} {rows : List GoRow} {r : GoRow}
    (hlk : term_paths.lookup lbl = some rows)
    (hnd : (rows.map fun s => s.native).Nodup)
    (hr : r ∈ rows) (hnat : r.native = tid)
    (hm : matchesAny m (pattern_paths lbl) r.name = true) :
    heatmapEntry m term_paths pattern_paths lbl tid
      = npToCell (fillna0 (transformPvalNp (r.p_value : ℝ))) := by
  have htid : tid ∈ (filter_go_terms m (pattern_paths lbl) rows).2 :=
    (mem_filter_go_terms_ids m (pattern_paths lbl) rows tid).mpr ⟨r, hr, hnat, hm⟩
  have hrmem : r ∈ (filter_go_terms m (pattern_paths lbl) rows).1 :=
    (mem_filter_go_terms_rows hnd r).mpr ⟨hr, hm⟩
  simp only [heatmapEntry, hlk]
  rw [if_pos htid]
  cases hfind : (filter_go_terms m (pattern_paths lbl) rows).1.find?
      fun s => s.native == tid with
  | none =>
    exact absurd (beq_iff_eq.mpr hnat) (List.find?_eq_none.mp hfind r hrmem)
  | some r0 =>
    have hr0 : r0 ∈ rows := ((mem_filter_go_terms_rows hnd r0).mp
      (List.mem_of_find?_eq_some hfind)).1
    have hfnd : r0.native = tid := by simpa using List.find?_some hfind
    have hr0r : r0 = r := List.inj_on_of_nodup_map hnd hr0 hr (by rw [hfnd, hnat])
    rw [hr0r]

/-- A term not selected for a cluster stays NaN in the matrix and so
gets the `fillna` value `0`. -/
theorem heatmapEntry_not_selected (m : String → String → Bool)
    (term_paths : List (String × List GoRow)) (pattern_paths : String → List String)
    {lbl tid : String} {rows : List GoRow}
    (hlk : term_paths.lookup lbl = some rows)
    (hnot : tid ∉ (filter_go_terms m (pattern_paths lbl) rows).2) :
    heatmapEntry m term_paths pattern_paths lbl tid = some 0 := by
  simp only [heatmapEntry, hlk]
  rw [if_neg hnot]
  rfl

/-- On `(0, 1]` the tracked transform is the finite value
`sqrt (-log p)`. -/
theorem transformPvalNp_of_mem_Ioc {p : ℝ} (hp0 : 0 < p) (hp1 : p ≤ 1) :
    transformPvalNp p = NpVal.finite (Real.sqrt (-Real.log p)) := by
  have hlog : Real.log p ≤ 0 := Real.log_nonpos (le_of_lt hp0) hp1
  rw [transformPvalNp, npLogV, if_pos hp0]
  show npSqrtV (NpVal.finite (-Real.log p)) = _
  simp only [npSqrtV]
  rw [if_pos (neg_nonneg.mpr hlog)]

/-- On `(0, 1]` the `Option`-valued transform is `some (sqrt (-log p))`. -/
theorem transform_pval_of_mem_Ioc {p : ℝ} (hp0 : 0 < p) (hp1 : p ≤ 1) :
    transform_pval p = some (Real.sqrt (-Real.log p)) := by
  have hlog : Real.log p ≤ 0 := Real.log_nonpos (le_of_lt hp0) hp1
  rw [transform_pval, npLog, if_pos hp0, Option.some_bind, npSqrt,
    if_pos (neg_nonneg.mpr hlog)]

/-- Above `1` the tracked transform is NaN: `-log p` is negative and
`np.sqrt` of a negative number is NaN. -/
theorem transformPvalNp_nan_of_one_lt {p : ℝ} (hp : 1 < p) :
    transformPvalNp p = NpVal.nan := by
  have hp0 : (0 : ℝ) < p := lt_trans one_pos hp
  have hlog : 0 < Real.log p := Real.log_pos hp
  rw [transformPvalNp, npLogV, if_pos hp0]
  show npSqrtV (NpVal.finite (-Real.log p)) = _
  simp only [npSqrtV]
  rw [if_neg (by linarith)]

/-- C6 (amended).  In the cluster-by-term matrix (one row per cluster
label, one column per id in the union of the clusters' filtered id
lists), the cell of cluster `lbl` and term `tid` holds the transformed
p-value of the cluster's row carrying that term — passed through the
final `fillna(0)` — when the term was selected for the cluster, and `0`
otherwise; when the raw p-value lies in `(0, 1]` the `fillna` is the
identity there, so the cell is exactly the transformed p-value; a
selected term's id is indeed among the matrix columns.  (Distinct
native ids per table is required for the pandas series-to-columns
alignment that writes the row to be well defined.) -/
theorem claim_C6 (m : String → String → Bool) (term_paths : List (String × List GoRow))
    (pattern_paths : String → List String) (lbl tid : String) (rows : List GoRow)
    (hlk : term_paths.lookup lbl = some rows)
    (hnd : (rows.map fun s => s.native).Nodup) :
    (∀ r ∈ rows, r.native = tid → matchesAny m (pattern_paths lbl) r.name = true →
        heatmapEntry m term_paths pattern_paths lbl tid
          = npToCell (fillna0 (transformPvalNp (r.p_value : ℝ))))
    ∧ (∀ r ∈ rows, r.native = tid → matchesAny m (pattern_paths lbl) r.name = true →
        0 < (r.p_value : ℝ) → (r.p_value : ℝ) ≤ 1 →
        heatmapEntry m term_paths pattern_paths lbl tid = transform_pval (r.p_value : ℝ))
    ∧ (tid ∉ (filter_go_terms m (pattern_paths lbl) rows).2 →
        heatmapEntry m term_paths pattern_paths lbl tid = some 0)
    ∧ (tid ∈ (filter_go_terms m (pattern_paths lbl) rows).2 →
        tid ∈ heatmapColLabels m term_paths pattern_paths) := by
  refine ⟨?_, ?_, ?_, ?_⟩
  · exact fun r hr hnat hm =>
      heatmapEntry_eq_cell m term_paths pattern_paths hlk hnd hr hnat hm
  · intro r hr hnat hm hp0 hp1
    rw [heatmapEntry_eq_cell m term_paths pattern_paths hlk hnd hr hnat hm,
      transformPvalNp_of_mem_Ioc hp0 hp1, transform_pval_of_mem_Ioc hp0 hp1]
    rfl
  · exact fun hnot => heatmapEntry_not_selected m term_paths pattern_paths hlk hnot
  · intro htid
    rw [heatmapColLabels, List.mem_dedup, List.mem_flatMap]
    exact ⟨(lbl, rows), pair_mem_of_lookup_eq_some hlk, htid⟩

/-- C6 counterexample: for the selected term of `termPathsBad`, whose
raw p-value is `2`, the transformed p-value is NaN but the final
`fillna(0)` stores `0` in the cell — refuting "entry (cluster, term) is
the transformed p-value of that term for that cluster when the term was
selected". -/
theorem claim_C6_counterexample :
    heatmapEntry reMatchLiteralCI termPathsBad patternPathsEx "c1" "GO:0001" = some 0
    ∧ transformPvalNp ((pv2Row.p_value : ℚ) : ℝ) = NpVal.nan := by
  have h2 : (1 : ℝ) < ((pv2Row.p_value : ℚ) : ℝ) := by norm_num [pv2Row]
  have hnan := transformPvalNp_nan_of_one_lt h2
  have hlk : termPathsBad.lookup "c1" = some [pv2Row] := by decide
  have hcell := heatmapEntry_eq_cell reMatchLiteralCI termPathsBad patternPathsEx hlk
    (by decide) (show pv2Row ∈ [pv2Row] by decide) (show pv2Row.native = "GO:0001" by decide)
    (by decide)
  rw [hnan] at hcell
  exact ⟨hcell, hnan⟩

/-- C6 witness: in the one-cluster example, the cell of cluster `c1`
and the selected term `GO:0001` (raw p-value `1`, inside `(0, 1]`) is
the transformed p-value of `appleRowW`. -/
theorem claim_C6_witness :
    heatmapEntry reMatchLiteralCI termPathsEx patternPathsEx "c1" "GO:0001"
      = transform_pval ((appleRowW.p_value : ℚ) : ℝ) :=
  (claim_C6 reMatchLiteralCI termPathsEx patternPathsEx "c1" "GO:0001" goDfW (by decide)
    (by decide)).2.1 appleRowW (by decide) (by decide) (by decide)
    (by norm_num [appleRowW]) (by norm_num [appleRowW])

/-- C7.  The combined spreadsheet `big_df` holds exactly the rows
`(cluster label, source, native, name, p_value, significant)` obtained
from each cluster of `term_paths` and each row of its table selected by
the cluster's patterns, concatenated over the clusters. -/
theorem claim_C7 (m : String → String → Bool) (term_paths : List (String × List GoRow))
    (pattern_paths : String → List String)
    (hnd : ∀ c ∈ term_paths, ((c.2).map fun r => r.native).Nodup) (s : SaveRow) :
    s ∈ bigDf m term_paths pattern_paths ↔
      ∃ c ∈ term_paths, ∃ r ∈ c.2, matchesAny m (pattern_paths c.1) r.name = true
        ∧ s = ⟨c.1, r.source, r.native, r.name, r.p_value, r.significant⟩ := by
  rw [bigDf, List.mem_flatMap]
  constructor
  · rintro ⟨c, hc, hs⟩
    obtain ⟨r, hr, rfl⟩ := List.mem_map.mp hs
    obtain ⟨hrc, hm⟩ := (mem_filter_go_terms_rows (hnd c hc) r).mp hr
    exact ⟨c, hc, r, hrc, hm, rfl⟩
  · rintro ⟨c, hc, r, hr, hm, rfl⟩
    exact ⟨c, hc, List.mem_map.mpr
      ⟨r, (mem_filter_go_terms_rows (hnd c hc) r).mpr ⟨hr, hm⟩, rfl⟩⟩

/-- C7 witness: the spreadsheet built from the one-cluster example
contains the row for cluster `c1` and the selected term of
`appleRowW`. -/
theorem claim_C7_witness :
    saveRowEx ∈ bigDf reMatchLiteralCI termPathsEx patternPathsEx :=
  (claim_C7 reMatchLiteralCI termPathsEx patternPathsEx (by decide) saveRowEx).mpr
    ⟨("c1", goDfW), by decide, appleRowW, by decide, by decide, by decide⟩

/-- C9.  Called with `save_filtered_df = true` and `save_path = none`
(their defaults), `generate_go_heatmap` fails at
`os.path.join(save_path, ...)` — returning an error before producing
any heatmap output, whatever the inputs. -/
theorem claim_C9 (m : String → String → Bool) (term_paths : List (String × List GoRow))
    (pattern_paths : String → List String) :
    generate_go_heatmap m term_paths pattern_paths true none
      = Except.error
          "TypeError: join() argument must be str, bytes, or os.PathLike object, not NoneType" :=
  rfl

/-- `transform_pval p` is a finite non-negative real exactly when
`0 < p ≤ 1`. -/
theorem transform_pval_finite_nonneg_iff (p : ℝ) :
    (∃ y, transform_pval p = some y ∧ 0 ≤ y) ↔ 0 < p ∧ p ≤ 1 := by
  constructor
  · rintro ⟨y, hy, -⟩
    rw [transform_pval, npLog] at hy
    by_cases hp : 0 < p
    · rw [if_pos hp] at hy
      rw [Option.some_bind, npSqrt] at hy
      by_cases hs : (0 : ℝ) ≤ -Real.log p
      · refine ⟨hp, ?_⟩
        by_contra h1
        push_neg at h1
        have hpos := Real.log_pos h1
        have hnp := neg_nonneg.mp hs
        linarith
      · rw [if_neg hs] at hy
        exact absurd hy (by simp)
    · rw [if_neg hp] at hy
      exact absurd hy (by simp)
  · rintro ⟨hp0, hp1⟩
    have hlog : Real.log p ≤ 0 := Real.log_nonpos (le_of_lt hp0) hp1
    refine ⟨Real.sqrt (-Real.log p), ?_, Real.sqrt_nonneg _⟩
    rw [transform_pval, npLog, if_pos hp0, Option.some_bind, npSqrt,
      if_pos (neg_nonneg.mpr hlog)]

/-- C10.  `transform_pval` returns a finite non-negative real exactly
when `0 < p ≤ 1`; consequently every heatmap cell written for a
selected term whose raw p-value lies in `(0, 1]` is a non-negative
number. -/
theorem claim_C10 :
    (∀ p : ℝ, (∃ y, transform_pval p = some y ∧ 0 ≤ y) ↔ 0 < p ∧ p ≤ 1)
    ∧ (∀ (m : String → String → Bool) (term_paths : List (String × List GoRow))
        (pattern_paths : String → List String) (lbl tid : String) (rows : List GoRow)
        (r : GoRow), term_paths.lookup lbl = some rows →
        ((rows.map fun s => s.native)).Nodup → r ∈ rows → r.native = tid →
        matchesAny m (pattern_paths lbl) r.name = true →
        0 < (r.p_value : ℝ) → (r.p_value : ℝ) ≤ 1 →
        ∃ y, heatmapEntry m term_paths pattern_paths lbl tid = some y ∧ 0 ≤ y) := by
  refine ⟨transform_pval_finite_nonneg_iff, ?_⟩
  intro m term_paths pattern_paths lbl tid rows r hlk hnd hr hnat hm hp0 hp1
  rw [heatmapEntry_eq_cell m term_paths pattern_paths hlk hnd hr hnat hm,
    transformPvalNp_of_mem_Ioc hp0 hp1]
  exact ⟨Real.sqrt (-Real.log (r.p_value : ℝ)), rfl, Real.sqrt_nonneg _⟩

/-- C10 witness: in the one-cluster example the cell of the selected
term `GO:0001` (raw p-value `1`) is a non-negative number. -/
theorem claim_C10_witness :
    ∃ y, heatmapEntry reMatchLiteralCI termPathsEx patternPathsEx "c1" "GO:0001"
      = some y ∧ 0 ≤ y :=
  claim_C10.2 reMatchLiteralCI termPathsEx patternPathsEx "c1" "GO:0001" goDfW appleRowW
    (by decide) (by decide) (by decide) (by decide) (by decide)
    (by norm_num [appleRowW]) (by norm_num [appleRowW])
